import Mathlib

/-!
# Verification of the comment-rendering core of cargo-bloat-action

Shallow embedding of `src/comments.ts`: the snapshot-difference report
renderer (`createSnapshotComment`, `createComment`) and the comment
upsert client (`createOrUpdateComment`).  External collaborators
(the `filesize` humanizer and the `text-table` column aligner, both
third-party npm libraries) are passed in as function parameters; the
GitHub API is modelled by an explicit response value and an explicit
action type describing the single network effect the client performs.

JavaScript semantics captured explicitly:
* `null`-able numbers become `Option Int`;
* `if (x)` on a `number | null` is truthiness: `none` and `some 0` are falsy;
* `String.prototype.includes` is literal substring search;
* `str.split("\n")` splits on every newline, producing a trailing empty
  fragment when the string ends in a newline;
* `Object.entries` of the emoji table iterates in insertion order.
-/

namespace CargoBloat

/-- JS truthiness of a `number | null` value (`NaN` excluded: sizes are
integral byte counts). `null` and `0` are falsy. -/
def jsTruthy : Option Int → Bool
  | none => false
  | some n => n != 0

/-- `sub.isPrefixOf s` on character lists, mirroring a JS prefix test. -/
def isPrefixL : List Char → List Char → Bool
  | [], _ => true
  | _ :: _, [] => false
  | a :: as, b :: bs => a == b && isPrefixL as bs

/-- Substring search on character lists: does `sub` occur contiguously in `s`? -/
def hasSubL : List Char → List Char → Bool
  | [], sub => isPrefixL sub []
  | c :: t, sub => isPrefixL sub (c :: t) || hasSubL t sub

/-- JS `s.includes(sub)`: literal substring containment. -/
def jsIncludes (s sub : String) : Bool :=
  hasSubL s.data sub.data

/-- JS `s.split("\n")` on character lists: splits at every newline; a string
ending in a newline yields a trailing empty fragment, and the empty string
yields one empty fragment. -/
def splitOnNl : List Char → List (List Char)
  | [] => [[]]
  | c :: rest =>
      let r := splitOnNl rest
      if c == '\n' then [] :: r
      else
        match r with
        | [] => [[c]]
        | h :: t => (c :: h) :: t

/-- JS `s.split("\n")` at the `String` level. -/
def jsSplitNl (s : String) : List String :=
  (splitOnNl s.data).map String.mk

/-- One entry of `SnapshotDifference.crateDifference`: a crate name with the
old and new sizes, each possibly absent (`null`). -/
structure CrateDifference where
  name : String
  old : Option Int
  new : Option Int
  deriving Repr, DecidableEq

/-- One segment of a line diff as produced by the `diff` library: flags for
added/removed (both false means unchanged) and the newline-terminated text. -/
structure Change where
  added : Bool
  removed : Bool
  value : String
  deriving Repr, DecidableEq

/-- `treeDiff` is either an opaque pre-rendered string or a sequence of
tagged line-diff segments (the code distinguishes them by `typeof`). -/
inductive TreeDiff where
  | str (s : String)
  | changes (cs : List Change)
  deriving Repr, DecidableEq

/-- The `SnapshotDifference` record from `src/snapshots.ts` as consumed by
the renderer (fields restricted to the ones `comments.ts` reads). -/
structure SnapshotDifference where
  packageName : String
  currentSize : Int
  oldSize : Option Int
  sizeDifference : Int
  currentTextSize : Int
  oldTextSize : Option Int
  textDifference : Int
  crateDifference : List CrateDifference
  treeDiff : TreeDiff
  oldDependenciesCount : Nat
  newDependenciesCount : Nat
  deriving Repr, DecidableEq

/-- Modelled from the spec: `shouldIncludeInDiff` is imported from
`src/utils.ts`, which is not among the sources.  The spec's
meaningful-difference rule says old and new are compared only when the old
value is present; if old is absent, always treat as "not meaningfully
different".  Argument order matches the call sites: new value first. -/
def shouldIncludeInDiff (newValue : Int) (oldValue : Option Int) : Bool :=
  match oldValue with
  | none => false
  | some o => o != newValue

/-- The crate-table rows built by `createSnapshotComment` (lines 81–96):
skip entries with both sides `null`; strictly-equal sides give one unlabeled
row; otherwise a `- name` row when `d.old` is truthy and a `+ name` row when
`d.new` is truthy.  `fs` is the external `filesize` humanizer. -/
def crateTableRows (fs : Int → String) (cd : List CrateDifference) :
    List (String × String) :=
  cd.flatMap fun d =>
    if d.old == none && d.new == none then
      []
    else if d.old == d.new then
      [(d.name, fs (d.new.getD 0))]
    else
      (if jsTruthy d.old then [("- " ++ d.name, fs (d.old.getD 0))] else []) ++
      (if jsTruthy d.new then [("+ " ++ d.name, fs (d.new.getD 0))] else [])

/-- The total-size rows of the size table (lines 99–108).  In the diff
branch the delta cell prefixes `+` exactly when `sizeDifference > 0`; in the
non-diff branch the code renders `fileSize(diff.currentTextSize)` under the
`Size` label. -/
def sizeRowsTotal (fs : Int → String) (diff : SnapshotDifference) :
    List (String × String × String) :=
  if shouldIncludeInDiff diff.currentSize diff.oldSize then
    [("- Size", fs (diff.oldSize.getD 0), ""),
     ("+ Size", fs diff.currentSize,
       (if diff.sizeDifference > 0 then "+" else "") ++ fs diff.sizeDifference)]
  else
    [("Size", fs diff.currentTextSize, "")]

/-- The text-size rows of the size table (lines 110–119). -/
def sizeRowsText (fs : Int → String) (diff : SnapshotDifference) :
    List (String × String × String) :=
  if shouldIncludeInDiff diff.currentTextSize diff.oldTextSize then
    [("- Text Size", fs (diff.oldTextSize.getD 0), ""),
     ("+ Text Size", fs diff.currentTextSize,
       (if diff.textDifference > 0 then "+" else "") ++ fs diff.textDifference)]
  else
    [("Text size", fs diff.currentTextSize, "")]

/-- The full `sizeTableRows` array: total-size rows then text-size rows. -/
def sizeTableRows (fs : Int → String) (diff : SnapshotDifference) :
    List (String × String × String) :=
  sizeRowsTotal fs diff ++ sizeRowsText fs diff

/-- The one-character diff marker of a tree-diff segment (lines 134–139). -/
def changeMarker (change : Change) : String :=
  if change.added then "+" else if change.removed then "-" else " "

/-- Rendering of one tree-diff segment (lines 140–141): split the text on
newlines, drop the final fragment (`slice(0, -1)`), mark every remaining
line, rejoin with newlines and append a newline. -/
def renderChange (change : Change) : String :=
  let splitLines := jsSplitNl change.value
  String.intercalate "\n"
      (splitLines.dropLast.map fun line => changeMarker change ++ " " ++ line)
    ++ "\n"

/-- The `treeDiff` local of `createSnapshotComment` (lines 126–145): a plain
string is used verbatim; otherwise the segment blocks are concatenated and a
trailing blank line is appended. -/
def renderTreeDiff (td : TreeDiff) : String :=
  match td with
  | .str s => s
  | .changes cs => String.join (cs.map renderChange) ++ "\n"

/-- The `dependencyCountDiff` local (lines 147–153). -/
def dependencyCountDiff (oldCount newCount : Nat) : String :=
  if oldCount == newCount then
    "Count: " ++ toString oldCount
  else
    "- Count: " ++ toString oldCount ++ "\n" ++ "+ Count: " ++ toString newCount

/-- The `crateDetailsText` local (lines 155–172): a short notice when there
are no crate rows, otherwise a collapsible section holding the crate table
(`tbl` is the external `text-table` column aligner). -/
def crateDetailsText (fs : Int → String) (tbl : List (List String) → String)
    (cd : List CrateDifference) : String :=
  if (crateTableRows fs cd).length == 0 then
    "No changes to crate sizes"
  else
    "\n<details>\n<summary>Size difference per crate</summary>\n<br />\n\n" ++
    "**Note:** The numbers below are not 100% accurate, use them as a rough estimate.\n\n" ++
    "```diff\n@@ Breakdown per crate @@\n\n" ++
    tbl ((crateTableRows fs cd).map fun r => [r.1, r.2]) ++
    "\n```\n\n</details>\n"

/-- The `treeDiffText` local (lines 173–186). -/
def treeDiffText (diff : SnapshotDifference) : String :=
  "\n<details>\n<summary>Dependency tree</summary>\n<br />\n\n" ++
  "```diff\n@@ Dependency tree @@\n" ++
  dependencyCountDiff diff.oldDependenciesCount diff.newDependenciesCount ++
  "\n\n" ++ renderTreeDiff diff.treeDiff ++ "\n```\n\n</details>\n"

/-- `createSnapshotComment` (lines 78–200): the Markdown fragment for one
snapshot difference. -/
def createSnapshotComment (fs : Int → String)
    (tbl : List (List String) → String) (diff : SnapshotDifference) : String :=
  "\n```diff\n@@ Size breakdown @@\n\n" ++
  tbl ((sizeTableRows fs diff).map fun r => [r.1, r.2.1, r.2.2]) ++
  "\n\n```\n\n" ++
  crateDetailsText fs tbl diff.crateDifference ++
  "\n\n" ++ treeDiffText diff ++ "\n"

/-- The emoji table of `createComment` (lines 205–210), in insertion order
as iterated by `Object.entries`. -/
def emojiList : List (String × String) :=
  [("apple", "apple"), ("windows", "office"),
   ("arm", "muscle"), ("linux", "cowboy_hat_face")]

/-- The `for … break` loop of `createComment` (lines 212–219): starting
from the default `crab`, take the first table entry whose key occurs in the
toolchain label. -/
def selectEmojiLoop (toolchain : String) : List (String × String) → String
  | [] => "crab"
  | (key, emoji) :: rest =>
      if jsIncludes toolchain key then emoji else selectEmojiLoop toolchain rest

/-- The `selectedEmoji` local of `createComment`. -/
def selectedEmoji (toolchain : String) : String :=
  selectEmojiLoop toolchain emojiList

/-- The `compareCommitText` local (lines 221–224); `owner`/`repo` come from
the workflow context. -/
def compareCommitText (owner repo : String) (masterCommit : Option String)
    (currentCommit : String) : String :=
  match masterCommit with
  | none => ""
  | some m =>
      "([Compare with baseline commit](https://gitea.izzys.place/" ++ owner ++
      "/" ++ repo ++ "/compare/" ++ m ++ ".." ++ currentCommit ++ "))"

/-- The per-snapshot collapsible wrapper used in the multi-snapshot branch
of `createComment` (lines 233–237). -/
def wrappedSnapshot (fs : Int → String) (tbl : List (List String) → String)
    (snapshot : SnapshotDifference) : String :=
  "<details>\n<summary><strong>" ++ snapshot.packageName ++ "</strong>" ++
  (if shouldIncludeInDiff snapshot.currentSize snapshot.oldSize then
      " (Changes :warning:)"
    else "") ++
  "</summary>\n<br />\n" ++ createSnapshotComment fs tbl snapshot ++
  "\n</details>"

/-- The `innerComment` local (lines 226–239): a single snapshot is inlined
bare; any other length maps each snapshot through the collapsible wrapper
and joins with newlines. -/
def innerComment (fs : Int → String) (tbl : List (List String) → String) :
    List SnapshotDifference → String
  | [s] => createSnapshotComment fs tbl s
  | snapshots => String.intercalate "\n" (snapshots.map (wrappedSnapshot fs tbl))

/-- `createComment` (lines 202–249): the full comment body. -/
def createComment (fs : Int → String) (tbl : List (List String) → String)
    (owner repo : String) (masterCommit : Option String)
    (currentCommit toolchain : String)
    (snapshots : List SnapshotDifference) : String :=
  "\n  :" ++ selectedEmoji toolchain ++ ": Cargo bloat for toolchain **" ++
  toolchain ++ "** :" ++ selectedEmoji toolchain ++ ":\n\n  " ++
  innerComment fs tbl snapshots ++ "\n\n  Commit: " ++ currentCommit ++ " " ++
  compareCommitText owner repo masterCommit currentCommit ++ "\n  "

/-- One comment as returned by the issue tracker's listing endpoint. -/
structure IssueComment where
  id : Nat
  userLogin : String
  body : String
  deriving Repr, DecidableEq

/-- The listing response: HTTP status plus the first page of comments. -/
structure ListResponse where
  status : Nat
  data : List IssueComment
  deriving Repr, DecidableEq

/-- The single externally visible effect a run of `createOrUpdateComment`
performs after the listing: report a failure, create a comment, or update
an existing comment's body. -/
inductive CommentAction where
  | failed (msg : String)
  | create (body : String)
  | update (id : Nat) (body : String)
  deriving Repr, DecidableEq

/-- The comment filter (lines 62–65): authored by the GitHub Actions bot
identity and containing the toolchain label as a literal substring. -/
def isOurComment (toolchain : String) (v : IssueComment) : Bool :=
  v.userLogin == "github-actions[bot]" && jsIncludes v.body toolchain

/-- `createOrUpdateComment` (lines 39–76) as a function from the listing
response to the action taken: a non-200 status fails the run naming the
issue number; otherwise create when no comment matches, else update the
first match. -/
def createOrUpdateComment (toolchain message : String) (issueNumber : Nat)
    (resp : ListResponse) : CommentAction :=
  if resp.status != 200 then
    .failed ("Error fetching comments for MR " ++ toString issueNumber)
  else
    match resp.data.filter (isOurComment toolchain) with
    | [] => .create message
    | c :: _ => .update c.id message

/-- Effect of a `CommentAction` on the remote comment list (`freshId` is
the id the tracker would assign to a newly created comment). -/
def applyAction (a : CommentAction) (comments : List IssueComment)
    (freshId : Nat) : List IssueComment :=
  match a with
  | .failed _ => comments
  | .create body => comments ++ [⟨freshId, "github-actions[bot]", body⟩]
  | .update id body =>
      comments.map fun c => if c.id == id then { c with body := body } else c

/-! ## Concrete instances of the external collaborators, used in witnesses -/

/-- A concrete humanizer standing in for the external `filesize` library in
closed evaluations. -/
def fsBytes : Int → String := fun n => toString n ++ " B"

/-- A concrete column aligner standing in for the external `text-table`
library in closed evaluations. -/
def tblJoin : List (List String) → String := fun rows =>
  String.intercalate "\n" (rows.map (String.intercalate "  "))

/-! ## Emoji-selection lemmas -/

theorem selectEmojiLoop_default (tc : String) (l : List (String × String))
    (h : ∀ p ∈ l, jsIncludes tc p.1 = false) : selectEmojiLoop tc l = "crab" := by
  induction l with
  | nil => rfl
  | cons p rest ih =>
      obtain ⟨k, e⟩ := p
      have hk : jsIncludes tc k = false := h (k, e) (List.mem_cons_self _ _)
      simp only [selectEmojiLoop, hk, Bool.false_eq_true, if_false]
      exact ih fun q hq => h q (List.mem_cons_of_mem _ hq)

theorem selectEmojiLoop_first (tc : String) (l : List (String × String)) (i : Nat)
    (hi : i < l.length) (hmatch : jsIncludes tc (l.get ⟨i, hi⟩).1 = true)
    (hbefore : ∀ j (hj : j < l.length), j < i → jsIncludes tc (l.get ⟨j, hj⟩).1 = false) :
    selectEmojiLoop tc l = (l.get ⟨i, hi⟩).2 := by
  induction l generalizing i with
  | nil => exact absurd hi (Nat.not_lt_zero i)
  | cons p rest ih =>
      obtain ⟨k, e⟩ := p
      cases i with
      | zero =>
          simp only [List.get] at hmatch ⊢
          simp [selectEmojiLoop, hmatch]
      | succ m =>
          have h0 : jsIncludes tc k = false := by
            have := hbefore 0 (Nat.succ_pos _) (Nat.succ_pos _)
            simpa [List.get] using this
          simp only [List.get] at hmatch ⊢
          simp only [selectEmojiLoop, h0, Bool.false_eq_true, if_false]
          exact ih m (Nat.lt_of_succ_lt_succ hi) hmatch fun j hj hji => by
            have := hbefore (j + 1) (Nat.succ_lt_succ hj) (Nat.succ_lt_succ hji)
            simpa [List.get] using this

/-- Claim C8: `createComment` selects its decorative marker by scanning the
fixed ordered table (apple, windows, arm, linux), taking the first entry
whose key occurs as a substring of the toolchain label, and falling back to
the default `crab` marker when none occurs; for `x86_64-apple-darwin` the
apple marker is selected, not the default. -/
theorem createComment_marker_selection :
    (∀ tc, (∀ p ∈ emojiList, jsIncludes tc p.1 = false) → selectedEmoji tc = "crab") ∧
    (∀ tc i (hi : i < emojiList.length),
      jsIncludes tc (emojiList.get ⟨i, hi⟩).1 = true →
      (∀ j (hj : j < emojiList.length), j < i →
        jsIncludes tc (emojiList.get ⟨j, hj⟩).1 = false) →
      selectedEmoji tc = (emojiList.get ⟨i, hi⟩).2) ∧
    selectedEmoji "x86_64-apple-darwin" = "apple" ∧
    selectedEmoji "x86_64-apple-darwin" ≠ "crab" := by
  refine ⟨?_, ?_, ?_, ?_⟩
  · intro tc h
    exact selectEmojiLoop_default tc emojiList h
  · intro tc i hi hmatch hbefore
    exact selectEmojiLoop_first tc emojiList i hi hmatch hbefore
  · decide
  · decide

/-- Witness for C8: the apple rule fires first on `x86_64-apple-darwin`. -/
theorem createComment_marker_selection_witness :
    selectedEmoji "x86_64-apple-darwin" =
      (emojiList.get ⟨0, by decide⟩).2 :=
  createComment_marker_selection.2.1 "x86_64-apple-darwin" 0 (by decide) (by decide)
    fun j hj hj0 => absurd hj0 (Nat.not_lt_zero j)

/-- Claim C9: the dependency-count summary is the single line `Count: N`
exactly when the old and new dependency counts agree; otherwise it is the
removed line `- Count: old` followed by the added line `+ Count: new`. -/
theorem dependencyCountDiff_spec (o n : Nat) :
    (dependencyCountDiff o n = "Count: " ++ toString o ↔ o = n) ∧
    (o ≠ n → dependencyCountDiff o n =
      "- Count: " ++ toString o ++ "\n" ++ "+ Count: " ++ toString n) := by
  have hne : ∀ x : String, ("- Count: " ++ x).data.head? = some '-' := fun x => by
    rw [String.data_append]; rfl
  have hCc : ∀ x : String, ("Count: " ++ x).data.head? = some 'C' := fun x => by
    rw [String.data_append]; rfl
  constructor
  · constructor
    · intro h
      by_contra hcne
      have hd : dependencyCountDiff o n =
          "- Count: " ++ (toString o ++ "\n" ++ "+ Count: " ++ toString n) := by
        simp [dependencyCountDiff, hcne, String.append_assoc]
      rw [hd] at h
      have h1 := congrArg (fun s => s.data.head?) h
      simp only [hne, hCc] at h1
      exact absurd h1 (by decide)
    · intro h
      subst h
      simp [dependencyCountDiff]
  · intro h
    simp [dependencyCountDiff, h]

/-- Witness for C9: counts 10 and 12 render as a removed and an added line. -/
theorem dependencyCountDiff_spec_witness :
    (10 : Nat) ≠ 12 ∧
    dependencyCountDiff 10 12 =
      "- Count: " ++ toString 10 ++ "\n" ++ "+ Count: " ++ toString 12 :=
  ⟨by decide, (dependencyCountDiff_spec 10 12).2 (by decide)⟩

/-- Counterexample to claim C2 as stated: the entry `{name := "b",
old := 0, new := 5}` has a present old value, yet the code's truthiness
test `if (d.old)` drops the removed row, so only the added row appears. -/
theorem crateTableRows_zero_counterexample :
    crateTableRows fsBytes [⟨"b", some 0, some 5⟩] = [("+ b", fsBytes 5)] ∧
    ("- b", fsBytes 0) ∉ crateTableRows fsBytes [⟨"b", some 0, some 5⟩] := by
  decide

/-- Claim C2 (amended): per crate entry, both sides absent emits no row;
equal present sides emit one unlabeled row (including a common value of 0);
differing sides emit a removed row iff the old side is present **and
nonzero**, and an added row iff the new side is present **and nonzero**
(the code's truthiness test treats a present 0 like an absent value). -/
theorem crateTableRows_cases (fs : Int → String) (d : CrateDifference)
    (rest : List CrateDifference) :
    crateTableRows fs (d :: rest) =
      (match d.old, d.new with
       | none, none => []
       | some o, some n =>
           if o = n then [(d.name, fs n)]
           else
             (if o ≠ 0 then [("- " ++ d.name, fs o)] else []) ++
             (if n ≠ 0 then [("+ " ++ d.name, fs n)] else [])
       | some o, none => if o ≠ 0 then [("- " ++ d.name, fs o)] else []
       | none, some n => if n ≠ 0 then [("+ " ++ d.name, fs n)] else []) ++
      crateTableRows fs rest := by
  obtain ⟨name, o, n⟩ := d
  simp only [crateTableRows, List.flatMap_cons]
  congr 1
  cases o with
  | none =>
      cases n with
      | none => simp [jsTruthy]
      | some n => simp [jsTruthy]
  | some o =>
      cases n with
      | none => simp [jsTruthy]
      | some n =>
          by_cases h : o = n
          · subst h
            simp [jsTruthy]
          · simp [jsTruthy, h]

/-- Claim C1 evaluated at a failing input (code bug): with `oldSize`
absent, `currentSize = 1000` and `currentTextSize = 500`, the single
unlabeled `Size` row shows the humanized **text** size `500 B`, not the
humanized current total size `1000 B` that the spec requires. -/
theorem sizeRowsTotal_unlabeled_shows_text_size :
    sizeRowsTotal fsBytes ⟨"pkg", 1000, none, 0, 500, none, 0, [], .str "", 10, 10⟩ =
      [("Size", fsBytes 500, "")] ∧
    fsBytes 500 ≠ fsBytes 1000 := by
  decide

/-- Claim C7: for each size pair with a present, meaningfully different old
value, assuming the supplied difference field equals current minus old, the
added row's delta cell carries a leading `+` exactly when the new value
exceeds the old one; otherwise the humanized delta is shown unprefixed. -/
theorem sizeRows_delta_sign (fs : Int → String) (diff : SnapshotDifference) :
    (∀ o, diff.oldSize = some o →
      shouldIncludeInDiff diff.currentSize diff.oldSize = true →
      diff.sizeDifference = diff.currentSize - o →
      sizeRowsTotal fs diff =
        [("- Size", fs o, ""),
         ("+ Size", fs diff.currentSize,
           if o < diff.currentSize then "+" ++ fs diff.sizeDifference
           else fs diff.sizeDifference)]) ∧
    (∀ o, diff.oldTextSize = some o →
      shouldIncludeInDiff diff.currentTextSize diff.oldTextSize = true →
      diff.textDifference = diff.currentTextSize - o →
      sizeRowsText fs diff =
        [("- Text Size", fs o, ""),
         ("+ Text Size", fs diff.currentTextSize,
           if o < diff.currentTextSize then "+" ++ fs diff.textDifference
           else fs diff.textDifference)]) := by
  constructor
  · intro o ho hinc hd
    rw [ho] at hinc
    simp only [sizeRowsTotal, ho, hinc, if_true, Option.getD_some]
    by_cases hlt : o < diff.currentSize
    · have hpos : diff.sizeDifference > 0 := by omega
      simp [hpos, hlt]
    · have hpos : ¬ diff.sizeDifference > 0 := by omega
      simp [hpos, hlt]
  · intro o ho hinc hd
    rw [ho] at hinc
    simp only [sizeRowsText, ho, hinc, if_true, Option.getD_some]
    by_cases hlt : o < diff.currentTextSize
    · have hpos : diff.textDifference > 0 := by omega
      simp [hpos, hlt]
    · have hpos : ¬ diff.textDifference > 0 := by omega
      simp [hpos, hlt]

/-- A concrete snapshot difference with a grown total size and a shrunken
text size, used to witness the delta-sign theorem on both branches. -/
def c7Diff : SnapshotDifference :=
  ⟨"pkg", 1200, some 1000, 200, 600, some 700, -100, [], .str "", 3, 3⟩

/-- Witness for C7: at `c7Diff` the total delta `+200 B` is plus-prefixed
(1200 > 1000) and the text delta `-100 B` is not (600 < 700). -/
theorem sizeRows_delta_sign_witness :
    (sizeRowsTotal fsBytes c7Diff =
      [("- Size", fsBytes 1000, ""),
       ("+ Size", fsBytes c7Diff.currentSize,
         if (1000 : Int) < c7Diff.currentSize then "+" ++ fsBytes c7Diff.sizeDifference
         else fsBytes c7Diff.sizeDifference)]) ∧
    (sizeRowsText fsBytes c7Diff =
      [("- Text Size", fsBytes 700, ""),
       ("+ Text Size", fsBytes c7Diff.currentTextSize,
         if (700 : Int) < c7Diff.currentTextSize then "+" ++ fsBytes c7Diff.textDifference
         else fsBytes c7Diff.textDifference)]) :=
  ⟨(sizeRows_delta_sign fsBytes c7Diff).1 1000 rfl (by decide) (by decide),
   (sizeRows_delta_sign fsBytes c7Diff).2 700 rfl (by decide) (by decide)⟩

/-- Claim C4: a non-success listing status makes `createOrUpdateComment`
report a run-level failure naming the issue number, and the run performs no
create and no update: the remote comment list is unchanged. -/
theorem createOrUpdateComment_listing_failure (tc msg : String) (n freshId : Nat)
    (resp : ListResponse) (h : resp.status ≠ 200) :
    createOrUpdateComment tc msg n resp =
      .failed ("Error fetching comments for MR " ++ toString n) ∧
    applyAction (createOrUpdateComment tc msg n resp) resp.data freshId = resp.data := by
  have hs : (resp.status != 200) = true := by simpa using h
  constructor
  · simp [createOrUpdateComment, hs]
  · simp [createOrUpdateComment, hs, applyAction]

/-- Witness for C4: a 404 listing response fails the run and leaves the
comment list untouched. -/
theorem createOrUpdateComment_listing_failure_witness :
    (404 : Nat) ≠ 200 ∧
    (createOrUpdateComment "t" "m" 7 ⟨404, [⟨1, "alice", "old comment"⟩]⟩ =
        .failed ("Error fetching comments for MR " ++ toString 7) ∧
      applyAction (createOrUpdateComment "t" "m" 7 ⟨404, [⟨1, "alice", "old comment"⟩]⟩)
          [⟨1, "alice", "old comment"⟩] 99 = [⟨1, "alice", "old comment"⟩]) :=
  ⟨by decide,
   createOrUpdateComment_listing_failure "t" "m" 7 99 ⟨404, [⟨1, "alice", "old comment"⟩]⟩
     (by decide)⟩

/-- Claim C3: after a successful listing, the client creates a new comment
exactly when no listed comment is both bot-authored and contains the
toolchain label; otherwise it updates the body of the earliest-listed match
(every comment listed before it fails the filter) and every other comment —
in particular every later matching one — is left untouched.  The action is
a single create or a single update, never both. -/
theorem createOrUpdateComment_upsert (tc msg : String) (n freshId : Nat)
    (resp : ListResponse) (h : resp.status = 200) :
    (createOrUpdateComment tc msg n resp = .create msg ↔
      resp.data.filter (isOurComment tc) = []) ∧
    (∀ c rest, resp.data.filter (isOurComment tc) = c :: rest →
      createOrUpdateComment tc msg n resp = .update c.id msg ∧
      (∃ pre post, resp.data = pre ++ c :: post ∧
        ∀ x ∈ pre, isOurComment tc x = false) ∧
      (∀ c', c' ∈ resp.data → c'.id ≠ c.id →
        c' ∈ applyAction (createOrUpdateComment tc msg n resp) resp.data freshId)) := by
  have hs : (resp.status != 200) = false := by simp [h]
  constructor
  · cases hf : resp.data.filter (isOurComment tc) with
    | nil => simp [createOrUpdateComment, hs, hf]
    | cons c cs => simp [createOrUpdateComment, hs, hf]
  · intro c rest hrest
    have hact : createOrUpdateComment tc msg n resp = .update c.id msg := by
      simp [createOrUpdateComment, hs, hrest]
    refine ⟨hact, ?_, ?_⟩
    · obtain ⟨l₁, l₂, hsplit, hl₁, -, -⟩ := List.filter_eq_cons_iff.mp hrest
      exact ⟨l₁, l₂, hsplit, fun x hx => by simpa using hl₁ x hx⟩
    · intro c' hc' hid
      rw [hact]
      simp only [applyAction]
      have hfix : (if c'.id == c.id then { c' with body := msg } else c') = c' := by
        simp [hid]
      have hm := List.mem_map_of_mem
        (fun x => if x.id == c.id then { x with body := msg } else x) hc'
      simpa only [hfix] using hm

/-- A listing response holding one non-bot comment and two bot comments
mentioning the toolchain label `t`. -/
def c3Resp : ListResponse :=
  ⟨200, [⟨1, "alice", "toolchain t"⟩,
         ⟨2, "github-actions[bot]", "report t"⟩,
         ⟨3, "github-actions[bot]", "report t"⟩]⟩

/-- Witness for C3: with two matching bot comments (ids 2 and 3), the run
updates the earliest match (id 2). -/
theorem createOrUpdateComment_upsert_witness :
    createOrUpdateComment "t" "m" 7 c3Resp = .update 2 "m" :=
  ((createOrUpdateComment_upsert "t" "m" 7 0 c3Resp rfl).2
    ⟨2, "github-actions[bot]", "report t"⟩ [⟨3, "github-actions[bot]", "report t"⟩]
    (by decide)).1

/-- Claim C10: on the out-of-scope empty snapshot sequence, `createComment`
is still total and returns the fixed comment template with an empty inner
report section — the multi-snapshot branch maps over zero snapshots and
joins to the empty string. -/
theorem createComment_empty_snapshots (fs : Int → String)
    (tbl : List (List String) → String) (owner repo : String)
    (mc : Option String) (cc tc : String) :
    createComment fs tbl owner repo mc cc tc [] =
      "\n  :" ++ selectedEmoji tc ++ ": Cargo bloat for toolchain **" ++ tc ++
      "** :" ++ selectedEmoji tc ++ ":\n\n  " ++ "" ++ "\n\n  Commit: " ++ cc ++
      " " ++ compareCommitText owner repo mc cc ++ "\n  " := by
  rfl

/-- Claim C5: with exactly one snapshot the rendered fragment is inlined
bare into the comment template; with any other number of snapshots each
fragment is wrapped in its own `<details>` section titled with that
snapshot's package name, carrying the warning suffix exactly when its total
size pair is meaningfully different, and the sections are joined in input
order. -/
theorem createComment_wrapping (fs : Int → String)
    (tbl : List (List String) → String) (owner repo : String)
    (mc : Option String) (cc tc : String) :
    (∀ s, createComment fs tbl owner repo mc cc tc [s] =
      "\n  :" ++ selectedEmoji tc ++ ": Cargo bloat for toolchain **" ++ tc ++
      "** :" ++ selectedEmoji tc ++ ":\n\n  " ++ createSnapshotComment fs tbl s ++
      "\n\n  Commit: " ++ cc ++ " " ++ compareCommitText owner repo mc cc ++
      "\n  ") ∧
    (∀ l, 2 ≤ l.length → createComment fs tbl owner repo mc cc tc l =
      "\n  :" ++ selectedEmoji tc ++ ": Cargo bloat for toolchain **" ++ tc ++
      "** :" ++ selectedEmoji tc ++ ":\n\n  " ++
      String.intercalate "\n" (l.map (wrappedSnapshot fs tbl)) ++
      "\n\n  Commit: " ++ cc ++ " " ++ compareCommitText owner repo mc cc ++
      "\n  ") ∧
    (∀ s, wrappedSnapshot fs tbl s =
      "<details>\n<summary><strong>" ++ s.packageName ++ "</strong>" ++
      (if shouldIncludeInDiff s.currentSize s.oldSize then " (Changes :warning:)"
       else "") ++
      "</summary>\n<br />\n" ++ createSnapshotComment fs tbl s ++
      "\n</details>") := by
  refine ⟨fun s => rfl, ?_, fun s => rfl⟩
  intro l hl
  match l with
  | [] => exact absurd hl (by simp)
  | [s] => exact absurd hl (by simp)
  | a :: b :: t => rfl

/-- A small sample snapshot whose total size pair is meaningfully
different. -/
def snapA : SnapshotDifference :=
  ⟨"pkg-a", 1200, some 1000, 200, 600, some 600, 0,
   [⟨"a", some 1000, some 1000⟩], .str "tree", 3, 3⟩

/-- A small sample snapshot with no meaningful total size change. -/
def snapB : SnapshotDifference :=
  ⟨"pkg-b", 900, none, 0, 450, none, 0, [], .changes [⟨false, false, "x\n"⟩], 2, 2⟩

/-- Witness for C5: two snapshots get the wrapped, joined rendering. -/
theorem createComment_wrapping_witness :
    2 ≤ ([snapA, snapB] : List SnapshotDifference).length ∧
    createComment fsBytes tblJoin "o" "r" none "c" "x86_64-apple-darwin" [snapA, snapB] =
      "\n  :" ++ selectedEmoji "x86_64-apple-darwin" ++
      ": Cargo bloat for toolchain **" ++ "x86_64-apple-darwin" ++ "** :" ++
      selectedEmoji "x86_64-apple-darwin" ++ ":\n\n  " ++
      String.intercalate "\n" ([snapA, snapB].map (wrappedSnapshot fsBytes tblJoin)) ++
      "\n\n  Commit: " ++ "c" ++ " " ++
      compareCommitText "o" "r" none "c" ++ "\n  " :=
  ⟨by decide,
   (createComment_wrapping fsBytes tblJoin "o" "r" none "c" "x86_64-apple-darwin").2.1
     [snapA, snapB] (by decide)⟩

/-! ## Tree-diff rendering lemmas -/

theorem stringMk_data (s : String) : String.mk s.data = s := by
  cases s
  rfl

theorem splitOnNl_nl_cons (l rest : List Char) (h : '\n' ∉ l) :
    splitOnNl (l ++ '\n' :: rest) = l :: splitOnNl rest := by
  induction l with
  | nil =>
      show splitOnNl ('\n' :: rest) = [] :: splitOnNl rest
      simp [splitOnNl]
  | cons c t ih =>
      have hc : (c == '\n') = false := by
        have : c ≠ '\n' := fun hcn => h (hcn ▸ List.mem_cons_self c t)
        simpa using this
      have ht : '\n' ∉ t := fun hm => h (List.mem_cons_of_mem c hm)
      show splitOnNl (c :: (t ++ '\n' :: rest)) = (c :: t) :: splitOnNl rest
      simp only [splitOnNl, hc, Bool.false_eq_true, if_false]
      rw [ih ht]

theorem splitOnNl_flatten (lines : List (List Char)) (h : ∀ l ∈ lines, '\n' ∉ l) :
    splitOnNl ((lines.map fun l => l ++ ['\n']).flatten) = lines ++ [[]] := by
  induction lines with
  | nil => rfl
  | cons l t ih =>
      have hl : '\n' ∉ l := h l (List.mem_cons_self l t)
      have ht : ∀ x ∈ t, '\n' ∉ x := fun x hx => h x (List.mem_cons_of_mem l hx)
      simp only [List.map_cons, List.flatten_cons, List.append_assoc]
      show splitOnNl (l ++ '\n' :: (t.map fun x => x ++ ['\n']).flatten) =
        (l :: t) ++ [[]]
      rw [splitOnNl_nl_cons _ _ hl, ih ht]
      rfl

theorem foldlAppend_data (init : String) (l : List String) :
    (l.foldl (fun r s => r ++ s) init).data =
      init.data ++ (l.map String.data).flatten := by
  induction l generalizing init with
  | nil => simp
  | cons s t ih =>
      simp [List.foldl_cons, ih, String.data_append, List.append_assoc]

theorem join_data (l : List String) :
    (String.join l).data = (l.map String.data).flatten := by
  exact foldlAppend_data "" l

theorem jsSplitNl_joined (lines : List String) (h : ∀ l ∈ lines, '\n' ∉ l.data) :
    jsSplitNl (String.join (lines.map fun l => l ++ "\n")) = lines ++ [""] := by
  have hnl : ("\n" : String).data = ['\n'] := rfl
  have hdata : (String.join (lines.map fun l => l ++ "\n")).data =
      ((lines.map String.data).map fun l => l ++ ['\n']).flatten := by
    rw [join_data, List.map_map, List.map_map]
    congr 1
  have hmem : ∀ x ∈ lines.map String.data, '\n' ∉ x := by
    intro x hx
    obtain ⟨l, hl, rfl⟩ := List.mem_map.mp hx
    exact h l hl
  unfold jsSplitNl
  rw [hdata, splitOnNl_flatten _ hmem, List.map_append, List.map_map]
  have : (String.mk ∘ String.data) = id := funext stringMk_data
  simp [this]

/-- Claim C6: a plain-string tree diff is used verbatim; a tagged segment
whose text is a sequence of newline-terminated lines is rendered by
prefixing every line with `+ `, `- ` or two spaces according to its
added/removed flags (dropping the empty fragment after the terminal
newline) and appending a newline after the block; the blocks are
concatenated in input order with one trailing blank line appended. -/
theorem treeDiff_rendering :
    (∀ s, renderTreeDiff (TreeDiff.str s) = s) ∧
    (∀ r v, changeMarker ⟨true, r, v⟩ = "+") ∧
    (∀ v, changeMarker ⟨false, true, v⟩ = "-") ∧
    (∀ v, changeMarker ⟨false, false, v⟩ = " ") ∧
    (∀ (change : Change) (lines : List String),
      (∀ l ∈ lines, '\n' ∉ l.data) →
      change.value = String.join (lines.map fun l => l ++ "\n") →
      renderChange change =
        String.intercalate "\n"
            (lines.map fun line => changeMarker change ++ " " ++ line) ++
          "\n") ∧
    (∀ cs, renderTreeDiff (TreeDiff.changes cs) =
      String.join (cs.map renderChange) ++ "\n") := by
  refine ⟨fun s => rfl, fun r v => rfl, fun v => rfl, fun v => rfl, ?_, fun cs => rfl⟩
  intro change lines hnl hv
  simp only [renderChange]
  rw [hv, jsSplitNl_joined lines hnl, List.dropLast_concat]

/-- Witness for C6: an added segment of two newline-terminated lines is
rendered as those lines prefixed with `+ `. -/
theorem treeDiff_rendering_witness :
    renderChange ⟨true, false, "x\ny\n"⟩ =
      String.intercalate "\n"
          (["x", "y"].map fun line => changeMarker ⟨true, false, "x\ny\n"⟩ ++ " " ++ line) ++
        "\n" :=
  treeDiff_rendering.2.2.2.2.1 ⟨true, false, "x\ny\n"⟩ ["x", "y"]
    (by decide) (by decide)

end CargoBloat
